import Mathlib

/-
Verification development for the Tradesim repository: the market-data
ingestion and simulation-orchestration layer.

Numbers of the TypeScript source (JS `number`) are embedded as rationals;
epoch-millisecond timestamps as integers. A JS division whose result may be
non-finite (Infinity or NaN) is embedded as an `Option`, `none` standing for
the non-finite outcomes.
-/

/-! ## Data model

Structures transcribed from the interfaces of `src/unnamed/part_001`
(`OrderbookEntry`, `OrderbookData`, `TradeParameters`, `SimulationRequest`,
`LatencyMetrics`, `SimulationResponse`), from
`src/src/components/home.tsx` (`SimulationResult`) and from the
`PerformanceMetrics` interface. The `total` field is the cumulative size of a
level and `percentage` its percentage of the maximal cumulative size. -/

structure PriceLevel where
  price : ℚ
  size : ℚ
deriving DecidableEq

structure OrderbookEntry where
  price : ℚ
  size : ℚ
  total : ℚ
  percentage : ℚ
deriving DecidableEq

structure OrderbookData where
  bids : List OrderbookEntry
  asks : List OrderbookEntry
  spread : ℚ
  spreadPercentage : ℚ
  timestamp : ℤ
deriving DecidableEq

structure TradeParameters where
  symbol : String
  orderSize : ℚ
  feeTier : String
  executionStrategy : String
  volatility : Option ℚ
  urgency : Option String
deriving DecidableEq

structure SimulationRequest where
  orderbook : OrderbookData
  parameters : TradeParameters
  clientTimestamp : ℤ
deriving DecidableEq

structure LatencyMetrics where
  serverProcessingTime : ℚ
  totalServerTime : ℚ
deriving DecidableEq

structure SimulationResponse where
  slippage : ℚ
  marketImpact : ℚ
  fees : ℚ
  netTransactionCost : ℚ
  processingLatency : ℚ
  makerTakerProbability : ℚ
  latencyMetrics : LatencyMetrics
deriving DecidableEq

structure PerformanceMetrics where
  dataProcessingLatency : List ℚ
  uiUpdateLatency : List ℚ
  endToEndLatency : List ℚ
deriving DecidableEq

/-! ## Depth normalization

`cumList` and `listMax` are the arithmetic cores shared by the depth
normalizer and the depth-chart rendering. `listMax` embeds the JS
spread-call `Math.max(...l)` for a nonempty `l`. -/

def cumList (acc : ℚ) : List ℚ → List ℚ
  | [] => []
  | x :: xs => (acc + x) :: cumList (acc + x) xs

def listMax : List ℚ → ℚ
  | [] => 0
  | x :: xs => xs.foldl max x

/-- Modelled from the spec: the Depth Normalizer of spec section 4.1 is not
present under `src/` (only its data declarations in `src/unnamed/part_001`
and its consumer `OrderbookDisplay` are). Per the spec, one side of the book
is mapped to `OrderbookLevel`s with `cumulativeSize[i] = Σ size[0..i]` and
`percentageOfMax[i] = cumulativeSize[i] / max * 100`, where `max` is the
maximal cumulative value across both sides, passed in here as `m`. The
`total` and `percentage` fields of `OrderbookEntry` carry `cumulativeSize`
and `percentageOfMax`. -/
def normalizeSide (side : List PriceLevel) (m : ℚ) : List OrderbookEntry :=
  (side.zip (cumList 0 (side.map PriceLevel.size))).map
    (fun p => ⟨p.1.price, p.1.size, p.2, p.2 / m * 100⟩)

/-- Modelled from the spec: snapshot construction by the Depth Normalizer and
ingestor (spec sections 4.1, 4.2 and 7), absent from `src/`. Both sides are
normalized against the maximal cumulative value across both sides; `spread`
is best ask price minus best bid price (sides arrive best-first);
`spreadPercentage` is `spread / bestBid.price * 100`; the construction fails
closed (`none`) when either side is empty. -/
def normalizeBook (bids asks : List PriceLevel) (ts : ℤ) : Option OrderbookData :=
  match bids, asks with
  | [], _ => none
  | _, [] => none
  | bb :: _, ba :: _ =>
    let cumB := cumList 0 (bids.map PriceLevel.size)
    let cumA := cumList 0 (asks.map PriceLevel.size)
    let m := listMax (cumB ++ cumA)
    let spread := ba.price - bb.price
    some { bids := normalizeSide bids m
           asks := normalizeSide asks m
           spread := spread
           spreadPercentage := spread / bb.price * 100
           timestamp := ts }

/-! ## Depth-chart rendering (`OrderbookDisplay`, home.tsx) -/

/-- From `home.tsx` lines 332-342: `maxTotal` is `Math.max` over the `total`
fields of both sides when both sides are nonempty arrays, and `0`
otherwise. -/
def maxTotal (data : OrderbookData) : ℚ :=
  if 0 < data.bids.length ∧ 0 < data.asks.length then
    listMax (data.bids.map OrderbookEntry.total ++ data.asks.map OrderbookEntry.total)
  else 0

/-- JS division: `none` stands for the non-finite results (`Infinity`,
`-Infinity`, `NaN`) produced when the denominator is zero. -/
def jsDiv (a b : ℚ) : Option ℚ := if b = 0 then none else some (a / b)

/-- From `home.tsx` line 489: each rendered bid depth bar has CSS width
`(bid.total / maxTotal) * 100` percent. -/
def bidBarWidths (data : OrderbookData) : List (Option ℚ) :=
  data.bids.map (fun b => (jsDiv b.total (maxTotal data)).map (· * 100))

/-- From `home.tsx` line 506: each rendered ask depth bar has CSS width
`(ask.total / maxTotal) * 100` percent. -/
def askBarWidths (data : OrderbookData) : List (Option ℚ) :=
  data.asks.map (fun a => (jsDiv a.total (maxTotal data)).map (· * 100))

/-! ## Market data ingestor (`home.tsx` lines 24-57)

The WebSocket effect installs four handlers. `onopen` marks connected;
`onmessage` tries `JSON.parse` and on success publishes the parsed data via
`setOrderbookData`, while a parse failure is only logged (`console.error`);
`onerror` and `onclose` mark disconnected, and only the close event ends the
socket. An inbound message is embedded as `Option OrderbookData`: `some d`
when `JSON.parse` succeeds yielding `d`, `none` when it throws. The state
records the published snapshots in order and counts the logged parse
errors. -/

structure WsState where
  isConnected : Bool
  orderbookData : Option OrderbookData
  socketOpen : Bool
  parseErrors : ℕ
  published : List OrderbookData
deriving DecidableEq

inductive WsEvent where
  | wsOpen
  | message (parsed : Option OrderbookData)
  | wsError
  | wsClose
deriving DecidableEq

/-- One handler invocation, from `home.tsx` lines 30-52. The `message` case
is the `ws.onmessage` body (lines 35-42): a parsed message is published, an
unparsable one is logged and discarded, and neither touches the socket or
the connected flag. -/
def wsStep (st : WsState) (e : WsEvent) : WsState :=
  match e with
  | .wsOpen => { st with isConnected := true }
  | .message parsed =>
    match parsed with
    | some d => { st with orderbookData := some d, published := st.published ++ [d] }
    | none => { st with parseErrors := st.parseErrors + 1 }
  | .wsError => { st with isConnected := false }
  | .wsClose => { st with isConnected := false, socketOpen := false }

def wsRun (st : WsState) (es : List WsEvent) : WsState :=
  es.foldl wsStep st

/-! ## Simulation orchestrator (`SimulationService`, `src/unnamed/part_001`)

`runSimulation` builds the request, pushes one `dataProcessingLatency`
sample, then awaits `fetch`. The fetch outcome is a parameter of the
embedding: the promise may reject (a network fault), or resolve to a
response with an `ok` flag, a status, a status text and a body whose JSON
parse either succeeds or throws (a serialization fault). Thrown JS errors
are the `SimError` type; `jsFault` carries an arbitrary network or
serialization error by tag, and `apiError` is the `Error` thrown on
`!response.ok` at line 96. The clock readings taken by the function
(`performance.now()` at lines 68, 78, 83, 102 and `Date.now()` at line 74)
are the `CallTiming` parameter. -/

inductive SimError where
  | apiError (status : ℕ) (statusText : String)
  | jsFault (tag : ℕ)
deriving DecidableEq

instance {ε α : Type} [DecidableEq ε] [DecidableEq α] : DecidableEq (Except ε α) :=
  fun a b =>
  match a, b with
  | .ok x, .ok y =>
    if h : x = y then .isTrue (by rw [h]) else .isFalse (by simp [h])
  | .error x, .error y =>
    if h : x = y then .isTrue (by rw [h]) else .isFalse (by simp [h])
  | .ok _, .error _ => .isFalse (by simp)
  | .error _, .ok _ => .isFalse (by simp)

inductive FetchOutcome where
  | fault (e : SimError)
  | resp (ok : Bool) (status : ℕ) (statusText : String)
      (body : Except SimError SimulationResponse)
deriving DecidableEq

structure CallTiming where
  dpStart : ℚ
  dpEnd : ℚ
  wallNow : ℤ
  e2eStart : ℚ
  e2eEnd : ℚ
deriving DecidableEq

structure CallResult where
  outcome : Except SimError SimulationResponse
  metrics : PerformanceMetrics
  request : SimulationRequest
deriving DecidableEq

/-- From `src/unnamed/part_001` lines 63-112. The returned `CallResult`
carries the returned-or-thrown outcome, the performance-metrics state after
the call, and the request that was built and dispatched. The catch block at
lines 108-111 logs and rethrows the same error, so every failure reaches the
caller unmodified. -/
def runSimulation (orderbook : OrderbookData) (parameters : TradeParameters)
    (t : CallTiming) (fetched : FetchOutcome) (st : PerformanceMetrics) : CallResult :=
  let request : SimulationRequest :=
    { orderbook := orderbook, parameters := parameters, clientTimestamp := t.wallNow }
  let st1 : PerformanceMetrics :=
    { st with dataProcessingLatency := st.dataProcessingLatency ++ [t.dpEnd - t.dpStart] }
  match fetched with
  | .fault e => ⟨.error e, st1, request⟩
  | .resp ok status statusText body =>
    if ok then
      match body with
      | .ok r =>
        ⟨.ok r,
         { st1 with endToEndLatency := st1.endToEndLatency ++ [t.e2eEnd - t.e2eStart] },
         request⟩
      | .error e => ⟨.error e, st1, request⟩
    else ⟨.error (.apiError status statusText), st1, request⟩

/-- From `home.tsx` lines 60-89, the control flow of the caller around an
awaited simulation: `setSimulationResult(result)` runs only when the awaited
computation succeeds; the catch branch only logs, leaving the previously
stored result in place. -/
def storeResult {α : Type} (prev : Option α) (outcome : Except SimError α) : Option α :=
  match outcome with
  | .ok r => some r
  | .error _ => prev

/-! ## Latency aggregator (`src/unnamed/part_001` lines 114-148) -/

/-- From `getAverageMetrics` lines 132-135: sum by `reduce` from `0`,
divided by the length; `0` for an empty sequence. -/
def calculateAverage (arr : List ℚ) : ℚ :=
  if arr.length = 0 then 0 else arr.foldl (· + ·) 0 / (arr.length : ℚ)

structure AverageMetrics where
  avgDataProcessingLatency : ℚ
  avgUIUpdateLatency : ℚ
  avgEndToEndLatency : ℚ
deriving DecidableEq

/-- From `getAverageMetrics` lines 137-147. -/
def getAverageMetrics (m : PerformanceMetrics) : AverageMetrics :=
  { avgDataProcessingLatency := calculateAverage m.dataProcessingLatency
    avgUIUpdateLatency := calculateAverage m.uiUpdateLatency
    avgEndToEndLatency := calculateAverage m.endToEndLatency }

/-- From `recordUIUpdateLatency` lines 117-119. -/
def recordUIUpdateLatency (m : PerformanceMetrics) (x : ℚ) : PerformanceMetrics :=
  { m with uiUpdateLatency := m.uiUpdateLatency ++ [x] }

/-! ## The mock simulation handler (`home.tsx` lines 60-89) -/

/-- The five `Math.random()` draws of the mock result, in source order:
slippage, marketImpact, netTransactionCost, processingLatency,
makerTakerProbability. -/
structure MockRands where
  r1 : ℚ
  r2 : ℚ
  r3 : ℚ
  r4 : ℚ
  r5 : ℚ
deriving DecidableEq

structure HomeSimulationResult where
  slippage : ℚ
  marketImpact : ℚ
  fees : ℚ
  netTransactionCost : ℚ
  processingLatency : ℚ
  makerTakerProbability : ℚ
deriving DecidableEq

/-- From `home.tsx` lines 60-89: the handler fabricates a mock
`SimulationResult` locally (lines 71-81) and stores it. The second component
of the returned pair lists the requests dispatched to the remote pricing
service during the handler; the body contains no `fetch` and no
`SimulationService` call, so it is empty. -/
def handleRunSimulation (parameters : TradeParameters) (rands : MockRands) :
    HomeSimulationResult × List SimulationRequest :=
  ({ slippage := rands.r1 * 0.5
     marketImpact := rands.r2 * 0.8
     fees := parameters.orderSize * 0.001 * (if parameters.feeTier = "vip" then 0.5 else 1)
     netTransactionCost := rands.r3 * parameters.orderSize * 0.02
     processingLatency := rands.r4 * 100 + 50
     makerTakerProbability := rands.r5 }, [])

/-! ## Concrete data for evaluation

`exBids`/`exAsks` are the worked example of spec section 8: bids
`[[100,1],[99,2]]`, asks `[[101,1],[102,2]]`; `exSnap` is the snapshot the
normalizer yields on them. -/

def exBids : List PriceLevel := [⟨100, 1⟩, ⟨99, 2⟩]

def exAsks : List PriceLevel := [⟨101, 1⟩, ⟨102, 2⟩]

def exSnap : OrderbookData :=
  { bids := [⟨100, 1, 1, 100 / 3⟩, ⟨99, 2, 3, 100⟩]
    asks := [⟨101, 1, 1, 100 / 3⟩, ⟨102, 2, 3, 100⟩]
    spread := 1
    spreadPercentage := 1
    timestamp := 0 }

/-- A degenerate snapshot: one bid level, empty ask side. -/
def degenerateData : OrderbookData :=
  { bids := [⟨100, 1, 1, 100⟩], asks := [], spread := 0, spreadPercentage := 0
    timestamp := 0 }

def exParams : TradeParameters :=
  { symbol := "BTC-USDT-SWAP", orderSize := 100, feeTier := "vip"
    executionStrategy := "market", volatility := none, urgency := none }

def exTiming : CallTiming := ⟨0, 1, 5, 2, 9⟩

def exMetrics : PerformanceMetrics := ⟨[], [], []⟩

def exResponse : SimulationResponse := ⟨1, 1, 1, 1, 1, 1, ⟨1, 1⟩⟩

def exRands : MockRands := ⟨0, 0, 0, 0, 0⟩

def exWsState : WsState :=
  { isConnected := true, orderbookData := none, socketOpen := true
    parseErrors := 0, published := [] }

def exData1 : OrderbookData := ⟨[], [], 0, 0, 1⟩

def exData2 : OrderbookData := ⟨[], [], 0, 0, 2⟩

/-! ## Supporting lemmas on cumulative sums and maxima -/

theorem cumList_length (acc : ℚ) (l : List ℚ) : (cumList acc l).length = l.length := by
  induction l generalizing acc with
  | nil => rfl
  | cons x xs ih => simp [cumList, ih]

theorem cumList_getElem (acc : ℚ) (l : List ℚ) (i : ℕ) (h : i < (cumList acc l).length) :
    (cumList acc l)[i] = acc + (l.take (i + 1)).sum := by
  induction l generalizing acc i with
  | nil => simp [cumList] at h
  | cons x xs ih =>
    cases i with
    | zero => simp [cumList]
    | succ n =>
      have h2 : n < (cumList (acc + x) xs).length := by
        simp only [cumList, List.length_cons] at h
        omega
      calc (cumList acc (x :: xs))[n + 1]
          = (cumList (acc + x) xs)[n] := by simp [cumList]
        _ = acc + x + (xs.take (n + 1)).sum := ih (acc + x) n h2
        _ = acc + ((x :: xs).take (n + 2)).sum := by
            simp [List.take_succ_cons, add_assoc]

theorem sum_take_mono {l : List ℚ} (hl : ∀ x ∈ l, 0 ≤ x) {i j : ℕ} (hij : i ≤ j) :
    (l.take i).sum ≤ (l.take j).sum := by
  have h1 : (l.take j).take i = l.take i := by
    rw [List.take_take, min_eq_left hij]
  have h2 := List.sum_take_add_sum_drop (l.take j) i
  have h3 : 0 ≤ ((l.take j).drop i).sum :=
    List.sum_nonneg fun x hx => hl x (List.mem_of_mem_take (List.mem_of_mem_drop hx))
  calc (l.take i).sum = ((l.take j).take i).sum := by rw [h1]
    _ ≤ ((l.take j).take i).sum + ((l.take j).drop i).sum := le_add_of_nonneg_right h3
    _ = (l.take j).sum := h2

theorem cumList_mem_getElem {c : ℚ} {l : List ℚ} (hc : c ∈ cumList 0 l) :
    ∃ i, ∃ _ : i < l.length, c = (l.take (i + 1)).sum := by
  obtain ⟨i, h, hi⟩ := List.mem_iff_getElem.mp hc
  refine ⟨i, by simpa [cumList_length] using h, ?_⟩
  rw [← hi, cumList_getElem]
  ring

theorem cumList_nonneg {l : List ℚ} (hl : ∀ x ∈ l, 0 ≤ x) {c : ℚ} (hc : c ∈ cumList 0 l) :
    0 ≤ c := by
  obtain ⟨i, -, rfl⟩ := cumList_mem_getElem hc
  exact List.sum_nonneg fun x hx => hl x (List.mem_of_mem_take hx)

theorem cumList_le_sum {l : List ℚ} (hl : ∀ x ∈ l, 0 ≤ x) {c : ℚ} (hc : c ∈ cumList 0 l) :
    c ≤ l.sum := by
  obtain ⟨i, h, rfl⟩ := cumList_mem_getElem hc
  have h2 : (l.take (i + 1)).sum ≤ (l.take l.length).sum := sum_take_mono hl (by omega)
  simpa [List.take_length] using h2

theorem sum_mem_cumList {l : List ℚ} (hl : l ≠ []) : l.sum ∈ cumList 0 l := by
  have hlen : 0 < l.length := List.length_pos.mpr hl
  have h : l.length - 1 < (cumList 0 l).length := by
    rw [cumList_length]; omega
  have hval := cumList_getElem 0 l (l.length - 1) h
  have htake : l.take (l.length - 1 + 1) = l := by
    have he : l.length - 1 + 1 = l.length := by omega
    rw [he, List.take_length]
  rw [htake, zero_add] at hval
  have hmem := List.getElem_mem h
  rwa [hval] at hmem

theorem le_foldl_max_init (a : ℚ) (l : List ℚ) : a ≤ l.foldl max a := by
  induction l generalizing a with
  | nil => exact le_refl a
  | cons x xs ih => exact le_trans (le_max_left a x) (ih (max a x))

theorem le_foldl_max_of_mem {x : ℚ} {l : List ℚ} (hx : x ∈ l) (a : ℚ) :
    x ≤ l.foldl max a := by
  induction l generalizing a with
  | nil => cases hx
  | cons y ys ih =>
    rcases List.mem_cons.mp hx with rfl | h
    · exact le_trans (le_max_right a x) (le_foldl_max_init (max a x) ys)
    · exact ih h (max a y)

theorem foldl_max_choice (l : List ℚ) (a : ℚ) : l.foldl max a = a ∨ l.foldl max a ∈ l := by
  induction l generalizing a with
  | nil => exact Or.inl rfl
  | cons x xs ih =>
    rcases ih (max a x) with h | h
    · rcases max_choice a x with h2 | h2
      · exact Or.inl (by simp only [List.foldl]; rw [h, h2])
      · exact Or.inr (by simp only [List.foldl]; rw [h, h2]; exact List.mem_cons_self x xs)
    · exact Or.inr (by simp only [List.foldl]; exact List.mem_cons_of_mem x h)

theorem le_listMax {x : ℚ} {l : List ℚ} (hx : x ∈ l) : x ≤ listMax l := by
  cases l with
  | nil => cases hx
  | cons y ys =>
    rcases List.mem_cons.mp hx with rfl | h
    · exact le_foldl_max_init x ys
    · exact le_foldl_max_of_mem h y

theorem listMax_mem {l : List ℚ} (hl : l ≠ []) : listMax l ∈ l := by
  cases l with
  | nil => exact absurd rfl hl
  | cons y ys =>
    rcases foldl_max_choice ys y with h | h
    · rw [listMax, h]; exact List.mem_cons_self y ys
    · rw [listMax]; exact List.mem_cons_of_mem y h

theorem normalizeSide_length (side : List PriceLevel) (m : ℚ) :
    (normalizeSide side m).length = side.length := by
  simp [normalizeSide, List.length_zip, cumList_length]

theorem normalizeSide_mem {e : OrderbookEntry} {side : List PriceLevel} {m : ℚ}
    (he : e ∈ normalizeSide side m) :
    e.total ∈ cumList 0 (side.map PriceLevel.size) ∧ e.percentage = e.total / m * 100 := by
  obtain ⟨⟨l, c⟩, hp, rfl⟩ := List.mem_map.mp he
  exact ⟨(List.of_mem_zip hp).2, rfl⟩

theorem normalizeSide_exists_total {c : ℚ} {side : List PriceLevel} (m : ℚ)
    (hc : c ∈ cumList 0 (side.map PriceLevel.size)) :
    ∃ e ∈ normalizeSide side m, e.total = c ∧ e.percentage = c / m * 100 := by
  obtain ⟨i, hi, hci⟩ := List.mem_iff_getElem.mp hc
  have hside : i < side.length := by
    have := cumList_length 0 (side.map PriceLevel.size)
    simp only [List.length_map] at this
    omega
  have hn : i < (normalizeSide side m).length := by
    rw [normalizeSide_length]; exact hside
  refine ⟨(normalizeSide side m).get ⟨i, hn⟩, List.get_mem _ _ _, ?_, ?_⟩
  · simp [List.get_eq_getElem, normalizeSide, List.getElem_map, List.getElem_zip, hci]
  · simp [List.get_eq_getElem, normalizeSide, List.getElem_map, List.getElem_zip, hci]

theorem normalizeSide_get_total (side : List PriceLevel) (m : ℚ) (i : ℕ)
    (hi : i < (normalizeSide side m).length) :
    ((normalizeSide side m).get ⟨i, hi⟩).total
      = ((side.map PriceLevel.size).take (i + 1)).sum := by
  have h2 : i < (cumList 0 (side.map PriceLevel.size)).length := by
    rw [cumList_length, List.length_map, ← normalizeSide_length side m]
    exact hi
  have h3 : ((normalizeSide side m).get ⟨i, hi⟩).total
      = (cumList 0 (side.map PriceLevel.size))[i] := by
    simp [List.get_eq_getElem, normalizeSide, List.getElem_map, List.getElem_zip]
  rw [h3, cumList_getElem, zero_add]

/-- C1: for every ordered sequence of price levels fed in as one side, the
published levels satisfy `cumulativeSize[i] = Σ size[0..i]` (the `total`
field), and with nonnegative sizes the cumulative sizes are non-decreasing
along the side. -/
theorem cumulative_depth_correct (side : List PriceLevel) (m : ℚ) (i j : ℕ)
    (hi : i < (normalizeSide side m).length) (hj : j < (normalizeSide side m).length) :
    ((normalizeSide side m).get ⟨i, hi⟩).total
      = ((side.take (i + 1)).map PriceLevel.size).sum
    ∧ ((∀ l ∈ side, 0 ≤ l.size) → i ≤ j →
        ((normalizeSide side m).get ⟨i, hi⟩).total
          ≤ ((normalizeSide side m).get ⟨j, hj⟩).total) := by
  constructor
  · rw [normalizeSide_get_total, List.map_take]
  · intro hnn hij
    rw [normalizeSide_get_total, normalizeSide_get_total]
    exact sum_take_mono
      (fun x hx => by
        obtain ⟨l, hl, rfl⟩ := List.mem_map.mp hx
        exact hnn l hl)
      (by omega)

theorem cumulative_depth_correct_witness :
    ((normalizeSide exBids 3).get ⟨0, by norm_num [normalizeSide, exBids, cumList]⟩).total
      = ((exBids.take 1).map PriceLevel.size).sum
    ∧ ((normalizeSide exBids 3).get ⟨0, by norm_num [normalizeSide, exBids, cumList]⟩).total
      ≤ ((normalizeSide exBids 3).get ⟨1, by norm_num [normalizeSide, exBids, cumList]⟩).total := by
  have h := cumulative_depth_correct exBids 3 0 1
    (by norm_num [normalizeSide, exBids, cumList])
    (by norm_num [normalizeSide, exBids, cumList])
  exact ⟨h.1, h.2 (by norm_num [exBids]) (by omega)⟩

/-- C2: for every snapshot the normalizer publishes with nonempty bids and
asks, `spread` equals `bestAsk.price - bestBid.price` and `spreadPercentage`
equals `spread / bestBid.price * 100`, within tolerance `1e-9` (here the
identities hold exactly, so certainly within tolerance). -/
theorem spread_identity (bids asks : List PriceLevel) (ts : ℤ) (s : OrderbookData)
    (bb ba : PriceLevel) (hs : normalizeBook bids asks ts = some s)
    (hb : bids.head? = some bb) (ha : asks.head? = some ba) :
    |s.spread - (ba.price - bb.price)| ≤ 1 / 1000000000
    ∧ |s.spreadPercentage - s.spread / bb.price * 100| ≤ 1 / 1000000000 := by
  cases bids with
  | nil => simp [normalizeBook] at hs
  | cons b bt =>
    cases asks with
    | nil => simp [normalizeBook] at hs
    | cons a atl =>
      have hbb : bb = b := by simpa using hb.symm
      have hba : ba = a := by simpa using ha.symm
      subst hbb hba
      simp only [normalizeBook] at hs
      obtain rfl := (Option.some.inj hs).symm
      constructor
      · simp
      · simp

theorem spread_identity_witness :
    |exSnap.spread - ((⟨101, 1⟩ : PriceLevel).price - (⟨100, 1⟩ : PriceLevel).price)|
      ≤ 1 / 1000000000
    ∧ |exSnap.spreadPercentage - exSnap.spread / (⟨100, 1⟩ : PriceLevel).price * 100|
      ≤ 1 / 1000000000 :=
  spread_identity exBids exAsks 0 exSnap ⟨100, 1⟩ ⟨101, 1⟩
    (by norm_num [normalizeBook, normalizeSide, cumList, listMax, exBids, exAsks, exSnap])
    (by norm_num [exBids]) (by norm_num [exAsks])

theorem pct_bounds_aux {c M : ℚ} (h0 : 0 ≤ c) (hM : c ≤ M) (hMpos : 0 < M) :
    0 ≤ c / M * 100 ∧ c / M * 100 ≤ 100 := by
  constructor
  · have := div_nonneg h0 hMpos.le
    nlinarith
  · have h1 : c / M ≤ 1 := (div_le_one hMpos).mpr hM
    nlinarith

theorem side_sum_mem {S : List PriceLevel} (hS : S ≠ []) :
    (S.map PriceLevel.size).sum ∈ cumList 0 (S.map PriceLevel.size) :=
  sum_mem_cumList (by simpa using hS)

/-- C3: for every snapshot the normalizer publishes on two nonempty sides
whose sizes are nonnegative with at least one positive, every published
level has `percentageOfMax` in `[0, 100]`, and some level whose cumulative
size is largest across both sides has `percentageOfMax = 100`. -/
theorem percentage_bounds (bids asks : List PriceLevel) (ts : ℤ) (s : OrderbookData)
    (hs : normalizeBook bids asks ts = some s)
    (hnn : ∀ l ∈ bids ++ asks, 0 ≤ l.size)
    (hpos : ∃ l ∈ bids ++ asks, 0 < l.size) :
    (∀ e ∈ s.bids ++ s.asks, 0 ≤ e.percentage ∧ e.percentage ≤ 100)
    ∧ ∃ e ∈ s.bids ++ s.asks,
        (∀ f ∈ s.bids ++ s.asks, f.total ≤ e.total) ∧ e.percentage = 100 := by
  cases bids with
  | nil => simp [normalizeBook] at hs
  | cons b bt =>
    cases asks with
    | nil => simp [normalizeBook] at hs
    | cons a atl =>
      simp only [normalizeBook] at hs
      obtain rfl := (Option.some.inj hs).symm
      have hnnB : ∀ x ∈ ((b :: bt).map PriceLevel.size), 0 ≤ x := by
        intro x hx
        obtain ⟨l, hl, rfl⟩ := List.mem_map.mp hx
        exact hnn l (List.mem_append_left _ hl)
      have hnnA : ∀ x ∈ ((a :: atl).map PriceLevel.size), 0 ≤ x := by
        intro x hx
        obtain ⟨l, hl, rfl⟩ := List.mem_map.mp hx
        exact hnn l (List.mem_append_right _ hl)
      have hcumNN : ∀ c ∈ cumList 0 ((b :: bt).map PriceLevel.size)
          ++ cumList 0 ((a :: atl).map PriceLevel.size), 0 ≤ c := by
        intro c hc
        rcases List.mem_append.mp hc with h | h
        · exact cumList_nonneg hnnB h
        · exact cumList_nonneg hnnA h
      have hMpos : 0 < listMax (cumList 0 ((b :: bt).map PriceLevel.size)
          ++ cumList 0 ((a :: atl).map PriceLevel.size)) := by
        obtain ⟨l0, hl0, hl0pos⟩ := hpos
        rcases List.mem_append.mp hl0 with h | h
        · have h1 : l0.size ≤ ((b :: bt).map PriceLevel.size).sum :=
            List.single_le_sum hnnB _ (List.mem_map_of_mem _ h)
          have h2 := le_listMax (List.mem_append_left
            (cumList 0 ((a :: atl).map PriceLevel.size))
            (side_sum_mem (S := b :: bt) (by simp)))
          linarith
        · have h1 : l0.size ≤ ((a :: atl).map PriceLevel.size).sum :=
            List.single_le_sum hnnA _ (List.mem_map_of_mem _ h)
          have h2 := le_listMax (List.mem_append_right
            (cumList 0 ((b :: bt).map PriceLevel.size))
            (side_sum_mem (S := a :: atl) (by simp)))
          linarith
      constructor
      · intro e he
        simp only [List.mem_append] at he
        have hmem : e.total ∈ cumList 0 ((b :: bt).map PriceLevel.size)
            ++ cumList 0 ((a :: atl).map PriceLevel.size) := by
          rcases he with h | h
          · exact List.mem_append_left _ (normalizeSide_mem h).1
          · exact List.mem_append_right _ (normalizeSide_mem h).1
        have hpct : e.percentage = e.total / listMax (cumList 0 ((b :: bt).map PriceLevel.size)
            ++ cumList 0 ((a :: atl).map PriceLevel.size)) * 100 := by
          rcases he with h | h
          · exact (normalizeSide_mem h).2
          · exact (normalizeSide_mem h).2
        rw [hpct]
        exact pct_bounds_aux (hcumNN _ hmem) (le_listMax hmem) hMpos
      · have hMmem := listMax_mem
          (l := cumList 0 ((b :: bt).map PriceLevel.size)
            ++ cumList 0 ((a :: atl).map PriceLevel.size)) (by simp [cumList])
        have htotle : ∀ f ∈ normalizeSide (b :: bt) (listMax
              (cumList 0 ((b :: bt).map PriceLevel.size)
                ++ cumList 0 ((a :: atl).map PriceLevel.size)))
            ++ normalizeSide (a :: atl) (listMax
              (cumList 0 ((b :: bt).map PriceLevel.size)
                ++ cumList 0 ((a :: atl).map PriceLevel.size))),
            f.total ≤ listMax (cumList 0 ((b :: bt).map PriceLevel.size)
              ++ cumList 0 ((a :: atl).map PriceLevel.size)) := by
          intro f hf
          rcases List.mem_append.mp hf with h | h
          · exact le_listMax (List.mem_append_left _ (normalizeSide_mem h).1)
          · exact le_listMax (List.mem_append_right _ (normalizeSide_mem h).1)
        rcases List.mem_append.mp hMmem with h | h
        · obtain ⟨e, he, het, hep⟩ := normalizeSide_exists_total _ h
          refine ⟨e, List.mem_append_left _ he, ?_, ?_⟩
          · intro f hf
            rw [het]
            exact htotle f hf
          · rw [hep, div_self (ne_of_gt hMpos), one_mul]
        · obtain ⟨e, he, het, hep⟩ := normalizeSide_exists_total _ h
          refine ⟨e, List.mem_append_right _ he, ?_, ?_⟩
          · intro f hf
            rw [het]
            exact htotle f hf
          · rw [hep, div_self (ne_of_gt hMpos), one_mul]

theorem percentage_bounds_witness :
    (∀ e ∈ exSnap.bids ++ exSnap.asks, 0 ≤ e.percentage ∧ e.percentage ≤ 100)
    ∧ ∃ e ∈ exSnap.bids ++ exSnap.asks,
        (∀ f ∈ exSnap.bids ++ exSnap.asks, f.total ≤ e.total) ∧ e.percentage = 100 :=
  percentage_bounds exBids exAsks 0 exSnap
    (by norm_num [normalizeBook, normalizeSide, cumList, listMax, exBids, exAsks, exSnap])
    (by norm_num [exBids, exAsks])
    ⟨⟨100, 1⟩, by norm_num [exBids, exAsks], by norm_num⟩

/-- C4, evaluated at the failing input: on a book whose ask side is empty
the display code (home.tsx lines 332-342 and 487-492) does not fail closed.
It sets `maxTotal` to `0`, yet still renders one depth bar per bid whose
width divides by that zero: the width is non-finite (`Infinity` in JS,
`none` here) instead of the snapshot being rejected. -/
theorem degenerate_book_not_fail_closed :
    maxTotal degenerateData = 0 ∧ bidBarWidths degenerateData = [none] := by
  norm_num [maxTotal, bidBarWidths, jsDiv, degenerateData, listMax]

/-- C5: `runSimulation` returns a result exactly when the remote call
succeeds; a response whose status indicates failure yields the thrown
transport error (`apiError status statusText`, line 96), and a network or
serialization fault is propagated to the caller unmodified (the same error,
via the rethrow at line 110). -/
theorem runSimulation_contract (ob : OrderbookData) (p : TradeParameters)
    (t : CallTiming) (f : FetchOutcome) (st : PerformanceMetrics) :
    (∀ s tx r, f = .resp true s tx (.ok r) →
        (runSimulation ob p t f st).outcome = .ok r)
    ∧ (∀ r, (runSimulation ob p t f st).outcome = .ok r →
        ∃ s tx, f = .resp true s tx (.ok r))
    ∧ (∀ s tx body, f = .resp false s tx body →
        (runSimulation ob p t f st).outcome = .error (.apiError s tx))
    ∧ (∀ e, f = .fault e → (runSimulation ob p t f st).outcome = .error e)
    ∧ (∀ s tx e, f = .resp true s tx (.error e) →
        (runSimulation ob p t f st).outcome = .error e) := by
  refine ⟨?_, ?_, ?_, ?_, ?_⟩
  · intro s tx r hf
    subst hf
    simp [runSimulation]
  · intro r hr
    cases f with
    | fault e => simp [runSimulation] at hr
    | resp ok s tx body =>
      cases ok with
      | false => simp [runSimulation] at hr
      | true =>
        cases body with
        | error e => simp [runSimulation] at hr
        | ok r2 =>
          simp [runSimulation] at hr
          exact ⟨s, tx, by rw [hr]⟩
  · intro s tx body hf
    subst hf
    simp [runSimulation]
  · intro e hf
    subst hf
    simp [runSimulation]
  · intro s tx e hf
    subst hf
    simp [runSimulation]

theorem runSimulation_contract_witness :
    (runSimulation exSnap exParams exTiming
        (.resp true 200 "OK" (.ok exResponse)) exMetrics).outcome = .ok exResponse
    ∧ (runSimulation exSnap exParams exTiming
        (.resp false 500 "ERR" (.ok exResponse)) exMetrics).outcome
      = .error (.apiError 500 "ERR") :=
  ⟨(runSimulation_contract exSnap exParams exTiming
      (.resp true 200 "OK" (.ok exResponse)) exMetrics).1 200 "OK" exResponse rfl,
   (runSimulation_contract exSnap exParams exTiming
      (.resp false 500 "ERR" (.ok exResponse)) exMetrics).2.2.1 500 "ERR"
      (.ok exResponse) rfl⟩

/-- C6: a `runSimulation` call that fails (non-success status, network
fault, or malformed body) appends no `endToEndLatency` sample, and the
previously stored simulation result is left unchanged by the caller; the
failure itself is what reaches the caller. -/
theorem failure_isolation (ob : OrderbookData) (p : TradeParameters)
    (t : CallTiming) (f : FetchOutcome) (st : PerformanceMetrics)
    (e : SimError) (prev : Option SimulationResponse)
    (hf : (runSimulation ob p t f st).outcome = .error e) :
    (runSimulation ob p t f st).metrics.endToEndLatency = st.endToEndLatency
    ∧ storeResult prev ((runSimulation ob p t f st).outcome) = prev := by
  constructor
  · cases f with
    | fault e2 => simp [runSimulation]
    | resp ok s tx body =>
      cases ok with
      | false => simp [runSimulation]
      | true =>
        cases body with
        | error e2 => simp [runSimulation]
        | ok r => simp [runSimulation] at hf
  · rw [hf]
    rfl

theorem failure_isolation_witness :
    (runSimulation exSnap exParams exTiming (.fault (.jsFault 7))
        exMetrics).metrics.endToEndLatency = exMetrics.endToEndLatency
    ∧ storeResult (some exResponse)
        ((runSimulation exSnap exParams exTiming (.fault (.jsFault 7)) exMetrics).outcome)
      = some exResponse :=
  failure_isolation exSnap exParams exTiming (.fault (.jsFault 7)) exMetrics
    (.jsFault 7) (some exResponse) rfl

/-- C7: every `runSimulation` call builds a fresh `SimulationRequest` from
the snapshot, the parameters and the current local time, and appends exactly
one `dataProcessingLatency` sample (the request-build duration), regardless
of how the remote call turns out. -/
theorem request_build_records_processing (ob : OrderbookData) (p : TradeParameters)
    (t : CallTiming) (f : FetchOutcome) (st : PerformanceMetrics) :
    (runSimulation ob p t f st).request
      = { orderbook := ob, parameters := p, clientTimestamp := t.wallNow }
    ∧ (runSimulation ob p t f st).metrics.dataProcessingLatency
      = st.dataProcessingLatency ++ [t.dpEnd - t.dpStart] := by
  cases f with
  | fault e => exact ⟨rfl, rfl⟩
  | resp ok s tx body =>
    cases ok with
    | false => exact ⟨rfl, rfl⟩
    | true =>
      cases body with
      | error e => exact ⟨rfl, rfl⟩
      | ok r => exact ⟨rfl, rfl⟩

/-- C8: for every sample kind, the average is the arithmetic mean of the
recorded samples, `0` on an empty sequence; in particular `[10, 20, 30]`
averages to `20`. -/
theorem average_contract :
    (∀ arr : List ℚ, arr = [] → calculateAverage arr = 0)
    ∧ (∀ arr : List ℚ, arr ≠ [] → calculateAverage arr = arr.sum / (arr.length : ℚ))
    ∧ calculateAverage [10, 20, 30] = 20
    ∧ ∀ m : PerformanceMetrics,
        (getAverageMetrics m).avgDataProcessingLatency
            = calculateAverage m.dataProcessingLatency
        ∧ (getAverageMetrics m).avgUIUpdateLatency = calculateAverage m.uiUpdateLatency
        ∧ (getAverageMetrics m).avgEndToEndLatency = calculateAverage m.endToEndLatency := by
  refine ⟨?_, ?_, by norm_num [calculateAverage], fun m => ⟨rfl, rfl, rfl⟩⟩
  · intro arr h
    subst h
    rfl
  · intro arr h
    have hlen : arr.length ≠ 0 := fun h0 => h (List.length_eq_zero.mp h0)
    rw [calculateAverage, if_neg hlen, List.sum_eq_foldl]

theorem average_contract_witness :
    calculateAverage ([] : List ℚ) = 0
    ∧ calculateAverage [10, 20, 30]
      = ([10, 20, 30] : List ℚ).sum / ((([10, 20, 30] : List ℚ).length : ℚ)) :=
  ⟨average_contract.1 [] rfl, average_contract.2.1 [10, 20, 30] (by simp)⟩

/-- C9: an unparsable feed message is logged and discarded while the
subscription stays open: one bad message between two valid ones yields
exactly the two published snapshots, one logged parse error, an unchanged
connected flag and an open socket. -/
theorem malformed_resilience (st : WsState) (d1 d2 : OrderbookData)
    (h : st.socketOpen = true) :
    (wsRun st [.message (some d1), .message none, .message (some d2)]).published
      = st.published ++ [d1, d2]
    ∧ (wsRun st [.message (some d1), .message none, .message (some d2)]).socketOpen = true
    ∧ (wsRun st [.message (some d1), .message none, .message (some d2)]).isConnected
      = st.isConnected
    ∧ (wsRun st [.message (some d1), .message none, .message (some d2)]).parseErrors
      = st.parseErrors + 1 := by
  refine ⟨?_, ?_, ?_, ?_⟩ <;> simp [wsRun, wsStep, h]

theorem malformed_resilience_witness :
    (wsRun exWsState [.message (some exData1), .message none,
        .message (some exData2)]).published = exWsState.published ++ [exData1, exData2]
    ∧ (wsRun exWsState [.message (some exData1), .message none,
        .message (some exData2)]).socketOpen = true
    ∧ (wsRun exWsState [.message (some exData1), .message none,
        .message (some exData2)]).isConnected = exWsState.isConnected
    ∧ (wsRun exWsState [.message (some exData1), .message none,
        .message (some exData2)]).parseErrors = exWsState.parseErrors + 1 :=
  malformed_resilience exWsState exData1 exData2 rfl

/-- C10: the caller's simulation handler fabricates the result locally and
dispatches no request to the remote pricing service; the stored result has
`fees = orderSize * 0.001 * 0.5` for the `vip` fee tier and
`fees = orderSize * 0.001` otherwise. -/
theorem mock_simulation_fees (p : TradeParameters) (r : MockRands) :
    (handleRunSimulation p r).1.fees
      = p.orderSize * 0.001 * (if p.feeTier = "vip" then 0.5 else 1)
    ∧ (p.feeTier = "vip" →
        (handleRunSimulation p r).1.fees = p.orderSize * 0.001 * 0.5)
    ∧ (p.feeTier ≠ "vip" →
        (handleRunSimulation p r).1.fees = p.orderSize * 0.001)
    ∧ (handleRunSimulation p r).2 = [] := by
  refine ⟨rfl, ?_, ?_, rfl⟩
  · intro h
    simp [handleRunSimulation, h]
  · intro h
    simp [handleRunSimulation, h]

theorem mock_simulation_fees_witness :
    (handleRunSimulation exParams exRands).1.fees = exParams.orderSize * 0.001 * 0.5
    ∧ (handleRunSimulation exParams exRands).2 = [] :=
  ⟨(mock_simulation_fees exParams exRands).2.1 rfl,
   (mock_simulation_fees exParams exRands).2.2.2⟩
